import Mathlib

/-!
Shallow embedding of `AutoDeploymentLib-Go` (package `autodeployment`,
file `updater.go`) in Lean 4, together with theorems settling the frozen
claims about its specification.

External effects (HTTP transport, JSON decoding, filesystem calls, the
process clock) are modelled by explicit environment records describing the
outcome of each external call during one operation; the control flow of the
Go functions is translated line by line, and the filesystem / network /
process actions a tick performs are recorded as an explicit effect trace.
-/

namespace AutoDeployment

/-- `ReleaseInfo` (updater.go lines 17-24): metadata of a release fetched
from the deployment API. -/
structure ReleaseInfo where
  lastModifiedEpochMs : Int
  downloadURL : String
  sha256 : String
  deriving DecidableEq

/-- The `Updater` struct (updater.go lines 39-47).  The Go channel
`stopChan chan struct{}` is modelled by the one bit that matters for the
claims: whether it has been closed (`stopClosed`); it is allocated open at
construction and never reallocated.  `updateInterval` is in nanoseconds
(Go `time.Duration`). -/
structure Updater where
  apiRoot : String
  updateInterval : Int
  projectUUID : String
  projectKey : String
  running : Bool
  stopClosed : Bool
  serverTimeOffset : Int
  deriving DecidableEq

/-- `New` (updater.go lines 52-60).  Fields omitted from the Go struct
literal (`running`, `serverTimeOffset`) take Go zero values. -/
def New (uuid key : String) : Updater :=
  { apiRoot := "https://api.insights-api.top/deployment/"
    updateInterval := 30000000000
    projectUUID := uuid
    projectKey := key
    running := false
    stopClosed := false
    serverTimeOffset := 0 }

/-! ### Go string helpers

The Go standard-library helpers used by `updater.go` are embedded over the
underlying character lists (`String.data`): `strings.HasPrefix` is a
character-by-character prefix test, `strings.HasSuffix s p` holds exactly
when `p.data` is a suffix of `s.data` (tested on the reversed lists), and
`strings.TrimSuffix s p` returns `s[:len(s)-len(p)]` when the suffix is
present and `s` unchanged otherwise. -/

/-- Character-list prefix test (Bool-valued): does the second list start
with the first? -/
def listIsPre (pat target : List Char) : Bool :=
  match pat, target with
  | p :: ps, c :: cs => p == c && listIsPre ps cs
  | [], _ => true
  | _ :: _, [] => false

/-- `strings.HasPrefix s p`. -/
def startsWith (s p : String) : Bool :=
  listIsPre p.data s.data

/-- `strings.HasSuffix s p`. -/
def hasSuffix (s p : String) : Bool :=
  listIsPre p.data.reverse s.data.reverse

/-- `strings.TrimSuffix s p` = `s[:len(s)-len(p)]` if `p` is a suffix of
`s`, else `s`. -/
def trimSuffix (s p : String) : String :=
  if hasSuffix s p then ⟨s.data.take (s.data.length - p.data.length)⟩ else s

/-- Character-list substring test: `sub` occurs as a prefix of some tail. -/
def listIsInf (sub : List Char) : List Char → Bool
  | [] => listIsPre sub []
  | c :: ls => listIsPre sub (c :: ls) || listIsInf sub ls

/-- `strings.Contains s sub`. -/
def containsStr (s sub : String) : Bool :=
  listIsInf sub.data s.data

/-- `SetAPIRoot` (updater.go lines 64-68): trims one trailing `"/api"`,
then one trailing `"/"`, and stores the result.  Returns the stored
`apiRoot` value. -/
def SetAPIRoot (apiRoot : String) : String :=
  trimSuffix (trimSuffix apiRoot "/api") "/"

/-- `resolveURL` (updater.go lines 298-306), with the receiver's `apiRoot`
passed explicitly. -/
def resolveURL (apiRoot : String) (maybeRelative : String) : String :=
  if startsWith maybeRelative "http://" || startsWith maybeRelative "https://" then
    maybeRelative
  else if !startsWith maybeRelative "/" then
    apiRoot ++ ("/" ++ maybeRelative)
  else
    apiRoot ++ maybeRelative

/-! ### Case-insensitive digest comparison (`strings.EqualFold`)

`checkAndUpdate` compares digests with `strings.EqualFold` (updater.go
line 205).  Both digests are hex strings, hence pure ASCII, so the Unicode
`SimpleFold` branch of the library function is never reached; the embedding
is the ASCII path of `strings.EqualFold`: rune pairs are equal, or after
ordering the pair the smaller is an ASCII capital letter and the larger is
that letter plus 32. -/

/-- One rune-pair comparison of `strings.EqualFold` (ASCII path). -/
def foldCharEq (sr tr : Char) : Bool :=
  if tr = sr then true
  else
    let lo := if tr < sr then tr else sr
    let hi := if tr < sr then sr else tr
    decide ('A' ≤ lo) && decide (lo ≤ 'Z') && decide (hi.toNat = lo.toNat + 32)

/-- `strings.EqualFold` on character lists: pointwise `foldCharEq`, false
on a length mismatch. -/
def equalFoldList : List Char → List Char → Bool
  | [], [] => true
  | _ :: _, [] => false
  | [], _ :: _ => false
  | a :: as, b :: bs => foldCharEq a b && equalFoldList as bs

/-- `strings.EqualFold` (ASCII path) on strings. -/
def EqualFold (s t : String) : Bool :=
  equalFoldList s.data t.data

/-! ### Time synchronization -/

/-- Outcome of the single HTTP round trip of `GetServerTime`:
`transportErr` models a failing `http.Get`, `decoded` is the decoded
`currentEpochMs` field (`none` on a JSON decode error).  `localNow` is the
value `time.Now().UnixMilli()` would return during `SyncTime`. -/
structure TimeEnv where
  transportErr : Bool
  decoded : Option Int
  localNow : Int
  deriving DecidableEq

/-- `GetServerTime` (updater.go lines 107-121): returns 0 on a transport
error or a decode error, otherwise the decoded `currentEpochMs`. -/
def GetServerTime (env : TimeEnv) : Int :=
  if env.transportErr then 0
  else
    match env.decoded with
    | none => 0
    | some v => v

/-- `SyncTime` (updater.go lines 98-103): stores
`serverTime - time.Now().UnixMilli()` as the offset only when the fetched
server time is strictly positive. -/
def SyncTime (u : Updater) (env : TimeEnv) : Updater :=
  let serverTime := GetServerTime env
  if serverTime > 0 then { u with serverTimeOffset := serverTime - env.localNow }
  else u

/-! ### Start / Stop and the cancellation channel -/

/-- A Go runtime panic relevant to this code. -/
inductive GoPanic where
  | closeOfClosedChannel
  deriving DecidableEq

/-- `close(ch)` on a channel whose closed-bit is `closed`: closing an
already-closed channel panics. -/
def closeChan (closed : Bool) : Except GoPanic Unit :=
  if closed then Except.error GoPanic.closeOfClosedChannel else Except.ok ()

/-- `Stop` (updater.go lines 91-94): sets `running` to false and then
closes `stopChan` unconditionally — there is no guard against a second
close. -/
def Stop (u : Updater) : Except GoPanic Updater :=
  let u' := { u with running := false }
  match closeChan u'.stopClosed with
  | Except.error p => Except.error p
  | Except.ok _ => Except.ok { u' with stopClosed := true }

/-- `Start` (updater.go lines 79-88): fails only when the project UUID or
key is empty; otherwise it runs `SyncTime`, sets `running`, and spawns
`loop` on the existing `stopChan` (the channel is not recreated). -/
def Start (u : Updater) (env : TimeEnv) : Except String Updater :=
  if u.projectUUID = "" ∨ u.projectKey = "" then
    Except.error "missing project UUID or key"
  else
    Except.ok { SyncTime u env with running := true }

/-! ### The scheduling loop as a transition system

`loop` (updater.go lines 149-161) repeatedly executes
`select { case <-ticker.C: u.checkAndUpdate(); case <-u.stopChan: return }`.
Go semantics: a receive on a closed channel is always ready; a receive on
`ticker.C` is ready exactly when a tick is pending; `select` blocks until
at least one case is ready and then chooses among the ready cases
(uniformly at random when several are ready).  `LoopRun s evs` holds when
one complete execution of the loop, started in configuration `s`, is
admissible under these rules and performs the ticks listed in `evs` before
returning.  `timerFire` models the ticker firing (at latest at each
interval boundary) while the loop has not yet executed its next `select`. -/

/-- What the loop observes: a tick may be pending on `ticker.C`, and the
stop channel may be closed. -/
structure LoopState where
  tickPending : Bool
  stopClosed : Bool
  deriving DecidableEq

/-- Events a loop execution can perform (one per chosen tick case). -/
inductive LoopEvent where
  | tick
  deriving DecidableEq

/-- Admissible complete executions of `loop` from a configuration. -/
inductive LoopRun : LoopState → List LoopEvent → Prop where
  /-- `select` takes the `<-u.stopChan` case (ready because the channel is
  closed): the loop returns. -/
  | exitStep {s : LoopState} (h : s.stopClosed = true) : LoopRun s []
  /-- `select` takes the `<-ticker.C` case (ready because a tick is
  pending): `checkAndUpdate` runs, then the loop iterates. -/
  | tickStep {s : LoopState} {evs : List LoopEvent}
      (h : s.tickPending = true)
      (rest : LoopRun { s with tickPending := false } evs) :
      LoopRun s (LoopEvent.tick :: evs)
  /-- The ticker fires before the loop executes its next `select`. -/
  | timerFire {s : LoopState} {evs : List LoopEvent}
      (h : s.tickPending = false)
      (rest : LoopRun { s with tickPending := true } evs) :
      LoopRun s evs

/-- The loop configuration seen by a freshly spawned `loop` goroutine of
updater `u`: no tick pending yet, stop channel as the updater has it. -/
def initLoopState (u : Updater) : LoopState :=
  { tickPending := false, stopClosed := u.stopClosed }

/-! ### Release query and attestation check -/

/-- Outcome of the HTTP round trip of `fetchReleaseInfo`: a failing
`http.Get`, the response status, and the decoded `ReleaseInfo` body
(`none` on a JSON decode error). -/
structure FetchEnv where
  transportErr : Bool
  status : Nat
  decoded : Option ReleaseInfo
  deriving DecidableEq

/-- `fetchReleaseInfo` (updater.go lines 229-253): errors on transport
failure, non-200 status, decode failure, or a descriptor with
`lastModifiedEpochMs ≤ 0` or an empty `downloadUrl`. -/
def fetchReleaseInfo (env : FetchEnv) : Except String ReleaseInfo :=
  if env.transportErr then Except.error "transport"
  else if env.status ≠ 200 then Except.error "http status"
  else
    match env.decoded with
    | none => Except.error "decode"
    | some info =>
      if info.lastModifiedEpochMs ≤ 0 ∨ info.downloadURL = "" then
        Except.error "invalid release info"
      else Except.ok info

/-- An HTTP response as `verify` sees it: status code and raw body. -/
structure HttpResponse where
  status : Nat
  body : String
  deriving DecidableEq

/-- `verify` (updater.go lines 255-267): false on transport error
(`resp = none`); otherwise true exactly when the body textually contains
`"ok":true` or `"ok": true`.  The status code is never inspected. -/
def verify (resp : Option HttpResponse) : Bool :=
  match resp with
  | none => false
  | some r =>
    containsStr r.body "\"ok\":true" || containsStr r.body "\"ok\": true"

/-! ### One tick: `checkAndUpdate` as an effect trace -/

/-- Filesystem operations a tick can attempt, on the three paths derived
from the executable path `selfPath`: the staging file `selfPath+".download"`
(`Tmp`), the backup `selfPath+".bak"` (`Bak`), and the executable itself. -/
inductive FsOp where
  | removeTmp
  | removeBak
  | renameSelfToBak
  | renameTmpToSelf
  | chmodSelf
  | chtimesSelf (epochMs : Int)
  deriving DecidableEq

/-- Externally visible actions of one `checkAndUpdate` call, in program
order: the release-metadata request, the artifact download request (with
the resolved URL), the attestation request (with the digest sent), the
filesystem operations attempted, and process exit. -/
inductive Effect where
  | fetchRelease
  | downloadReq (url : String)
  | verifyReq (sha : String)
  | fs (op : FsOp)
  | exit0
  deriving DecidableEq

/-- Outcomes of the external calls made during one `checkAndUpdate` tick.
`renameSelfToBakErr` records whether `os.Rename(selfPath, backupPath)`
fails; the source discards that error (updater.go line 217), so no control
flow may depend on this field. -/
structure TickEnv where
  /-- `os.Executable()` succeeds. -/
  executableOk : Bool
  /-- Environment of the `fetchReleaseInfo` round trip. -/
  fetch : FetchEnv
  /-- `os.Stat(selfPath)` succeeds. -/
  statOk : Bool
  /-- `info.ModTime().UnixMilli()` of the executable. -/
  localMtime : Int
  /-- `u.download` fails (transport error, non-200 status, or create error). -/
  downloadErr : Bool
  /-- `calculateSHA256(tmpPath)` fails (open error). -/
  hashErr : Bool
  /-- Digest computed by `calculateSHA256` on success. -/
  computedSha : String
  /-- Response of the attestation request (`none` = transport error). -/
  verifyResp : Option HttpResponse
  /-- `os.Rename(selfPath, backupPath)` fails; error discarded by the source. -/
  renameSelfToBakErr : Bool
  deriving DecidableEq

/-- `checkAndUpdate` (updater.go lines 163-227), translated branch by
branch; the returned list is the trace of effects the tick performs.
Failures of `os.Remove`, `os.Rename`, `os.Chmod` and `os.Chtimes` are
discarded by the source, so the corresponding effects record attempts. -/
def checkAndUpdate (u : Updater) (env : TickEnv) : List Effect :=
  if env.executableOk = false then []
  else
    match fetchReleaseInfo env.fetch with
    | Except.error _ => [Effect.fetchRelease]
    | Except.ok release =>
      if release.sha256 = "" then [Effect.fetchRelease]
      else if env.statOk = false then [Effect.fetchRelease]
      else
        let localMtime := env.localMtime
        let adjustedMtime := localMtime + u.serverTimeOffset
        if adjustedMtime ≥ release.lastModifiedEpochMs then [Effect.fetchRelease]
        else
          let downloadURL := resolveURL u.apiRoot release.downloadURL
          [Effect.fetchRelease, Effect.fs FsOp.removeTmp] ++
          if env.downloadErr then
            [Effect.downloadReq downloadURL, Effect.fs FsOp.removeTmp]
          else
            [Effect.downloadReq downloadURL] ++
            if env.hashErr then [Effect.fs FsOp.removeTmp]
            else if EqualFold release.sha256 env.computedSha = false then
              [Effect.fs FsOp.removeTmp]
            else
              [Effect.verifyReq env.computedSha] ++
              if verify env.verifyResp = false then [Effect.fs FsOp.removeTmp]
              else
                [Effect.fs FsOp.removeBak, Effect.fs FsOp.renameSelfToBak,
                 Effect.fs FsOp.renameTmpToSelf, Effect.fs FsOp.chmodSelf,
                 Effect.fs (FsOp.chtimesSelf release.lastModifiedEpochMs),
                 Effect.exit0]

/-! ### Hex digits and ASCII case, for the digest-comparison claim -/

/-- The hex-digit alphabet: the characters that can occur in the hex
digests being compared. -/
def hexDigits : List Char :=
  "0123456789abcdefABCDEF".data

/-- ASCII lower-casing of one character ("equal up to ASCII letter case"
means equal after mapping this over both strings). -/
def asciiLower (c : Char) : Char :=
  if 'A' ≤ c ∧ c ≤ 'Z' then Char.ofNat (c.toNat + 32) else c

/-! ### Concrete instances used by witnesses and counterexamples -/

/-- A release descriptor used by concrete tick scenarios. -/
def rW : ReleaseInfo :=
  { lastModifiedEpochMs := 100, downloadURL := "/x", sha256 := "ab" }

/-- A tick environment that runs the whole update sequence successfully,
with `os.Rename(selfPath, backupPath)` failing. -/
def envC2 : TickEnv :=
  { executableOk := true
    fetch := { transportErr := false, status := 200, decoded := some rW }
    statOk := true
    localMtime := 0
    downloadErr := false
    hashErr := false
    computedSha := "ab"
    verifyResp := some ⟨200, "\"ok\":true"⟩
    renameSelfToBakErr := true }

/-- The updater running the concrete tick scenarios. -/
def uW : Updater := New "uuid-1" "key-1"

/-- A tick environment whose executable is already current
(`localMtime = 100 =` the release timestamp, offset 0). -/
def envC3 : TickEnv := { envC2 with localMtime := 100, renameSelfToBakErr := false }

/-- A tick environment whose staged download hashes to `"cd"`, mismatching
the descriptor digest `"ab"`. -/
def envC4 : TickEnv := { envC2 with computedSha := "cd", renameSelfToBakErr := false }

/-- An updater on which `Stop` has already been called once. -/
def uC9stopped : Updater := { New "uuid-1" "key-1" with stopClosed := true }

/-- A time environment whose synchronization request fails. -/
def tenvC9 : TimeEnv := { transportErr := true, decoded := none, localNow := 0 }

/-- The updater produced by calling `Start` again after `Stop`. -/
def uC9restart : Updater := { uC9stopped with running := true }

end AutoDeployment

namespace AutoDeployment

/-! ### Supporting lemmas -/

/-- `listIsPre p l` holds exactly when `l` extends `p`. -/
theorem listIsPre_iff_exists : ∀ (p l : List Char), listIsPre p l = true ↔ ∃ t, l = p ++ t
  | [], l => by simp [listIsPre]
  | a :: p, [] => by simp [listIsPre]
  | a :: p, b :: l => by
      rw [show listIsPre (a :: p) (b :: l) = (a == b && listIsPre p l) from rfl]
      simp only [Bool.and_eq_true, beq_iff_eq, listIsPre_iff_exists p l]
      constructor
      · rintro ⟨rfl, t, rfl⟩
        exact ⟨t, rfl⟩
      · rintro ⟨t, ht⟩
        injection ht with h1 h2
        exact ⟨h1.symm, t, h2⟩

/-- A nonempty prefix pins down the head of the list. -/
theorem listIsPre_cons_head {a : Char} {p l : List Char}
    (h : listIsPre (a :: p) l = true) : ∃ t, l = a :: t := by
  obtain ⟨t, rfl⟩ := (listIsPre_iff_exists (a :: p) l).mp h
  exact ⟨p ++ t, rfl⟩

/-- `String.append` concatenates the underlying character lists. -/
theorem data_append (s t : String) : (s ++ t).data = s.data ++ t.data := rfl

/-- Strings with the same character list are equal. -/
theorem str_eq_of_data {s t : String} (h : s.data = t.data) : s = t := by
  cases s
  cases t
  exact congrArg String.mk h

/-- `hasSuffix (s ++ p) p` always holds. -/
theorem hasSuffix_append (s p : String) : hasSuffix (s ++ p) p = true := by
  unfold hasSuffix
  rw [(listIsPre_iff_exists p.data.reverse (s ++ p).data.reverse)]
  exact ⟨s.data.reverse, by rw [data_append, List.reverse_append]⟩

/-- `strings.TrimSuffix` removes exactly the appended suffix. -/
theorem trimSuffix_append (s p : String) : trimSuffix (s ++ p) p = s := by
  unfold trimSuffix
  rw [if_pos (by rw [hasSuffix_append])]
  apply str_eq_of_data
  show ((s ++ p).data.take ((s ++ p).data.length - p.data.length)) = s.data
  rw [data_append, List.length_append, Nat.add_sub_cancel, List.take_left]

/-- `trimSuffix` is the identity when the suffix is absent. -/
theorem trimSuffix_of_not_hasSuffix {s p : String} (h : hasSuffix s p = false) :
    trimSuffix s p = s := by
  unfold trimSuffix
  rw [h]
  rfl

/-- A string whose last character is `'/'` does not end in `"/api"`. -/
theorem hasSuffix_api_false_of_last_slash {s : String} {r : List Char}
    (hrev : s.data.reverse = '/' :: r) : hasSuffix s "/api" = false := by
  cases hv : hasSuffix s "/api" with
  | false => rfl
  | true =>
    exfalso
    unfold hasSuffix at hv
    rw [hrev, show "/api".data.reverse = 'i' :: ['p', 'a', '/'] from rfl] at hv
    obtain ⟨t, ht⟩ := listIsPre_cons_head hv
    injection ht with h1 _
    exact absurd h1 (by decide)

/-- A string starting with `'/'` starts with neither `"http://"` nor
`"https://"`. -/
theorem startsWith_slash_not_scheme {loc : String} (h : startsWith loc "/" = true) :
    startsWith loc "http://" = false ∧ startsWith loc "https://" = false := by
  unfold startsWith at h
  obtain ⟨cs, hd⟩ := listIsPre_cons_head (p := []) (by rw [show "/".data = ['/'] from rfl] at h; exact h)
  constructor
  · show listIsPre "http://".data loc.data = false
    rw [hd]
    rfl
  · show listIsPre "https://".data loc.data = false
    rw [hd]
    rfl

/-- `SyncTime` never touches the stop channel. -/
theorem syncTime_stopClosed (u : Updater) (env : TimeEnv) :
    (SyncTime u env).stopClosed = u.stopClosed := by
  simp only [SyncTime]
  split <;> rfl

/-- On the hex alphabet, one `strings.EqualFold` rune comparison accepts
exactly the pairs equal up to ASCII letter case. -/
theorem foldCharEq_hex_pairs :
    ∀ a ∈ hexDigits, ∀ b ∈ hexDigits,
      (foldCharEq a b = true ↔ asciiLower a = asciiLower b) := by decide

/-- `strings.EqualFold` on hex character lists is comparison of their
ASCII-lowercased forms. -/
theorem equalFoldList_hex_iff :
    ∀ (l m : List Char), (∀ c ∈ l, c ∈ hexDigits) → (∀ c ∈ m, c ∈ hexDigits) →
      (equalFoldList l m = true ↔ l.map asciiLower = m.map asciiLower) := by
  intro l
  induction l with
  | nil =>
    intro m _ _
    cases m <;> simp [equalFoldList]
  | cons a as ih =>
    intro m hl hm
    cases m with
    | nil => simp [equalFoldList]
    | cons b bs =>
      have hab := foldCharEq_hex_pairs a (hl a (by simp)) b (hm b (by simp))
      have ihr := ih bs (fun c hc => hl c (by simp [hc])) (fun c hc => hm c (by simp [hc]))
      rw [show equalFoldList (a :: as) (b :: bs) = (foldCharEq a b && equalFoldList as bs) from rfl]
      simp only [Bool.and_eq_true, hab, ihr, List.map_cons, List.cons.injEq]

/-! ### Claims -/

/-- C1: the claim says the second close of the cancellation primitive is
guarded so the double-close panic is unreachable.  The code has no guard:
`Stop` unconditionally runs `close(u.stopChan)`, so on an updater whose
channel a first `Stop` already closed, a second `Stop` reaches the
close-of-closed-channel panic.  This theorem evaluates the code at that
failing input. -/
theorem stop_without_guard_panics_on_second_call :
    Stop { New "uuid-1" "key-1" with running := true } =
      Except.ok { New "uuid-1" "key-1" with stopClosed := true } ∧
    Stop { New "uuid-1" "key-1" with stopClosed := true } =
      Except.error GoPanic.closeOfClosedChannel :=
  ⟨rfl, rfl⟩

/-- C2 counterexample: the claim states that when the rename of the
executable to the backup path fails, the tick aborts (staging not renamed
onto the executable, no chmod/chtimes, no exit).  In the code the error of
`os.Rename(selfPath, backupPath)` is discarded: on a concrete tick whose
backup rename fails, the tick still renames the staging file onto the
executable path, chmods, chtimes and exits. -/
theorem install_continues_after_failed_backup_rename_cex :
    envC2.renameSelfToBakErr = true ∧
    Effect.fs FsOp.renameTmpToSelf ∈ checkAndUpdate uW envC2 ∧
    Effect.fs FsOp.chmodSelf ∈ checkAndUpdate uW envC2 ∧
    Effect.fs (FsOp.chtimesSelf 100) ∈ checkAndUpdate uW envC2 ∧
    Effect.exit0 ∈ checkAndUpdate uW envC2 := by
  refine ⟨rfl, ?_, ?_, ?_, ?_⟩ <;> decide

/-- C2 amended: if the rename of the current executable to the backup path
fails, the error is discarded and the installer proceeds exactly as on
success — the staging file is renamed onto the executable path, chmod and
chtimes are attempted, and the process exits. -/
theorem install_ignores_backup_rename_error (u : Updater) (env : TickEnv) (r : ReleaseInfo)
    (hexec : env.executableOk = true)
    (hfetch : fetchReleaseInfo env.fetch = Except.ok r)
    (hsha : r.sha256 ≠ "")
    (hstat : env.statOk = true)
    (hstale : env.localMtime + u.serverTimeOffset < r.lastModifiedEpochMs)
    (hdl : env.downloadErr = false)
    (hhash : env.hashErr = false)
    (hmatch : EqualFold r.sha256 env.computedSha = true)
    (hver : verify env.verifyResp = true)
    (_hren : env.renameSelfToBakErr = true) :
    checkAndUpdate u env =
      [Effect.fetchRelease, Effect.fs FsOp.removeTmp,
       Effect.downloadReq (resolveURL u.apiRoot r.downloadURL),
       Effect.verifyReq env.computedSha,
       Effect.fs FsOp.removeBak, Effect.fs FsOp.renameSelfToBak,
       Effect.fs FsOp.renameTmpToSelf, Effect.fs FsOp.chmodSelf,
       Effect.fs (FsOp.chtimesSelf r.lastModifiedEpochMs), Effect.exit0] := by
  simp [checkAndUpdate, hexec, hfetch, hsha, hstat, hdl, hhash, hmatch, hver,
        not_le.mpr hstale]

/-- C2 amended, witness at a concrete input. -/
theorem install_ignores_backup_rename_error_witness :
    checkAndUpdate uW envC2 =
      [Effect.fetchRelease, Effect.fs FsOp.removeTmp,
       Effect.downloadReq (resolveURL uW.apiRoot rW.downloadURL),
       Effect.verifyReq envC2.computedSha,
       Effect.fs FsOp.removeBak, Effect.fs FsOp.renameSelfToBak,
       Effect.fs FsOp.renameTmpToSelf, Effect.fs FsOp.chmodSelf,
       Effect.fs (FsOp.chtimesSelf rW.lastModifiedEpochMs), Effect.exit0] :=
  install_ignores_backup_rename_error uW envC2 rW rfl rfl (by decide) rfl
    (by decide) rfl rfl (by decide) (by decide) rfl

/-- C3: when the clock-adjusted modification time of the executable is at
least the release timestamp, the tick performs the release-metadata request
and nothing else: no download request, no filesystem operation, no
attestation request, no exit. -/
theorem tick_noop_when_binary_current (u : Updater) (env : TickEnv) (r : ReleaseInfo)
    (hexec : env.executableOk = true)
    (hfetch : fetchReleaseInfo env.fetch = Except.ok r)
    (hsha : r.sha256 ≠ "")
    (hstat : env.statOk = true)
    (hcur : env.localMtime + u.serverTimeOffset ≥ r.lastModifiedEpochMs) :
    checkAndUpdate u env = [Effect.fetchRelease] ∧
    (∀ url, Effect.downloadReq url ∉ checkAndUpdate u env) ∧
    (∀ op, Effect.fs op ∉ checkAndUpdate u env) ∧
    (∀ sha, Effect.verifyReq sha ∉ checkAndUpdate u env) ∧
    Effect.exit0 ∉ checkAndUpdate u env := by
  have htrace : checkAndUpdate u env = [Effect.fetchRelease] := by
    simp [checkAndUpdate, hexec, hfetch, hsha, hstat, hcur]
  refine ⟨htrace, ?_, ?_, ?_, ?_⟩ <;> simp [htrace]

/-- C3, witness at a concrete input. -/
theorem tick_noop_when_binary_current_witness :
    checkAndUpdate uW envC3 = [Effect.fetchRelease] :=
  (tick_noop_when_binary_current uW envC3 rW rfl rfl (by decide) rfl (by decide)).1

/-- C4: when the staged file downloads and hashes successfully but the
computed digest does not match the descriptor digest under `EqualFold`,
the tick's last action removes the staging file, and no backup operation,
no rename onto the executable, no chmod/chtimes, no attestation request
and no exit occur. -/
theorem tick_digest_mismatch_removes_staging (u : Updater) (env : TickEnv) (r : ReleaseInfo)
    (hexec : env.executableOk = true)
    (hfetch : fetchReleaseInfo env.fetch = Except.ok r)
    (hsha : r.sha256 ≠ "")
    (hstat : env.statOk = true)
    (hstale : env.localMtime + u.serverTimeOffset < r.lastModifiedEpochMs)
    (hdl : env.downloadErr = false)
    (hhash : env.hashErr = false)
    (hmm : EqualFold r.sha256 env.computedSha = false) :
    checkAndUpdate u env =
      [Effect.fetchRelease, Effect.fs FsOp.removeTmp,
       Effect.downloadReq (resolveURL u.apiRoot r.downloadURL),
       Effect.fs FsOp.removeTmp] ∧
    (checkAndUpdate u env).getLast? = some (Effect.fs FsOp.removeTmp) ∧
    Effect.fs FsOp.removeBak ∉ checkAndUpdate u env ∧
    Effect.fs FsOp.renameSelfToBak ∉ checkAndUpdate u env ∧
    Effect.fs FsOp.renameTmpToSelf ∉ checkAndUpdate u env ∧
    Effect.fs FsOp.chmodSelf ∉ checkAndUpdate u env ∧
    (∀ t, Effect.fs (FsOp.chtimesSelf t) ∉ checkAndUpdate u env) ∧
    (∀ sha, Effect.verifyReq sha ∉ checkAndUpdate u env) ∧
    Effect.exit0 ∉ checkAndUpdate u env := by
  have htrace : checkAndUpdate u env =
      [Effect.fetchRelease, Effect.fs FsOp.removeTmp,
       Effect.downloadReq (resolveURL u.apiRoot r.downloadURL),
       Effect.fs FsOp.removeTmp] := by
    simp [checkAndUpdate, hexec, hfetch, hsha, hstat, hdl, hhash, hmm,
          not_le.mpr hstale]
  refine ⟨htrace, ?_, ?_, ?_, ?_, ?_, ?_, ?_, ?_⟩ <;> simp [htrace]

/-- C4, witness at a concrete input. -/
theorem tick_digest_mismatch_removes_staging_witness :
    checkAndUpdate uW envC4 =
      [Effect.fetchRelease, Effect.fs FsOp.removeTmp,
       Effect.downloadReq (resolveURL uW.apiRoot rW.downloadURL),
       Effect.fs FsOp.removeTmp] :=
  (tick_digest_mismatch_removes_staging uW envC4 rW rfl rfl (by decide) rfl
    (by decide) rfl rfl (by decide)).1

/-- C5: when the time query fails by transport error, decode error, or a
non-positive remote time, `SyncTime` leaves the updater — in particular its
stored offset — unchanged; and the offset starts at 0 at construction. -/
theorem syncTime_failure_preserves_offset :
    (∀ (u : Updater) (env : TimeEnv),
        (env.transportErr = true ∨ env.decoded = none ∨
          ∃ v, env.decoded = some v ∧ v ≤ 0) →
        SyncTime u env = u) ∧
    (∀ uuid key, (New uuid key).serverTimeOffset = 0) := by
  constructor
  · rintro u env (h | h | ⟨v, hv, hvle⟩)
    · simp [SyncTime, GetServerTime, h]
    · simp [SyncTime, GetServerTime, h]
    · have hle : ¬ GetServerTime env > 0 := by
        simp only [GetServerTime, hv]
        split <;> omega
      simp [SyncTime, hle]
  · intro uuid key
    rfl

/-- C5, witness at a concrete input. -/
theorem syncTime_failure_preserves_offset_witness :
    SyncTime (New "uuid-1" "key-1") { transportErr := true, decoded := some 5, localNow := 7 } =
      New "uuid-1" "key-1" ∧
    (New "uuid-1" "key-1").serverTimeOffset = 0 :=
  ⟨syncTime_failure_preserves_offset.1 (New "uuid-1" "key-1")
      { transportErr := true, decoded := some 5, localNow := 7 } (Or.inl rfl),
   syncTime_failure_preserves_offset.2 "uuid-1" "key-1"⟩

/-- C6 counterexample: the claim says bases written with or without the
trailing `/api` and `/` suffixes yield the same stored root.  `SetAPIRoot`
trims one `/api` and then one `/` in that fixed order, so the same base
written `".../api/"` and `".../api"` stores different roots. -/
theorem setAPIRoot_trailing_slash_after_api_cex :
    SetAPIRoot "https://example.com/api/" = "https://example.com/api" ∧
    SetAPIRoot "https://example.com/api" = "https://example.com" ∧
    SetAPIRoot "https://example.com/api/" ≠ SetAPIRoot "https://example.com/api" :=
  ⟨rfl, rfl, by decide⟩

/-- C6 amended: `SetAPIRoot` removes exactly one trailing `"/api"` suffix
and then exactly one trailing `"/"` suffix, in that order.  For a base with
neither suffix, the spellings `base`, `base ++ "/"` and `base ++ "/api"`
all store `base`, but `base ++ "/api/"` stores `base ++ "/api"` — the final
slash shields the `/api` segment from being trimmed. -/
theorem setAPIRoot_trims_api_then_slash (base : String)
    (h1 : hasSuffix base "/" = false) (h2 : hasSuffix base "/api" = false) :
    SetAPIRoot base = base ∧
    SetAPIRoot (base ++ "/") = base ∧
    SetAPIRoot (base ++ "/api") = base ∧
    SetAPIRoot (base ++ "/api/") = base ++ "/api" := by
  have hrev1 : (base ++ "/").data.reverse = '/' :: base.data.reverse := by
    rw [data_append, List.reverse_append]
    rfl
  have hrev2 : (base ++ "/api/").data.reverse =
      '/' :: ('i' :: 'p' :: 'a' :: '/' :: base.data.reverse) := by
    rw [data_append, List.reverse_append]
    rfl
  refine ⟨?_, ?_, ?_, ?_⟩
  · unfold SetAPIRoot
    rw [trimSuffix_of_not_hasSuffix h2, trimSuffix_of_not_hasSuffix h1]
  · unfold SetAPIRoot
    rw [trimSuffix_of_not_hasSuffix (hasSuffix_api_false_of_last_slash hrev1),
        trimSuffix_append]
  · unfold SetAPIRoot
    rw [trimSuffix_append, trimSuffix_of_not_hasSuffix h1]
  · unfold SetAPIRoot
    have hsplit : base ++ "/api/" = (base ++ "/api") ++ "/" := by
      apply str_eq_of_data
      simp only [data_append, List.append_assoc]
      rfl
    rw [trimSuffix_of_not_hasSuffix (hasSuffix_api_false_of_last_slash hrev2), hsplit,
        trimSuffix_append]

/-- C6 amended, witness at a concrete input. -/
theorem setAPIRoot_trims_api_then_slash_witness :
    SetAPIRoot "https://example.com" = "https://example.com" ∧
    SetAPIRoot ("https://example.com" ++ "/") = "https://example.com" ∧
    SetAPIRoot ("https://example.com" ++ "/api") = "https://example.com" ∧
    SetAPIRoot ("https://example.com" ++ "/api/") = "https://example.com" ++ "/api" :=
  setAPIRoot_trims_api_then_slash "https://example.com" (by decide) (by decide)

/-- C7: an absolute `http://` or `https://` download location resolves
unchanged, and a root-relative location (leading `/`) resolves to the
configured base concatenated with the location. -/
theorem resolveURL_absolute_or_root_relative (apiRoot loc : String) :
    ((startsWith loc "http://" = true ∨ startsWith loc "https://" = true) →
      resolveURL apiRoot loc = loc) ∧
    (startsWith loc "/" = true → resolveURL apiRoot loc = apiRoot ++ loc) := by
  constructor
  · intro h
    unfold resolveURL
    rcases h with h | h <;> simp [h]
  · intro h
    obtain ⟨hh1, hh2⟩ := startsWith_slash_not_scheme h
    simp [resolveURL, hh1, hh2, h]

/-- C7, witness at concrete inputs. -/
theorem resolveURL_absolute_or_root_relative_witness :
    resolveURL "https://base" "https://abs/x" = "https://abs/x" ∧
    resolveURL "https://base" "/files/v2" = "https://base" ++ "/files/v2" :=
  ⟨(resolveURL_absolute_or_root_relative "https://base" "https://abs/x").1
      (Or.inr (by decide)),
   (resolveURL_absolute_or_root_relative "https://base" "/files/v2").2 (by decide)⟩

/-- C8: on hex strings, `strings.EqualFold` accepts exactly the pairs that
are equal up to ASCII letter case (equal after ASCII-lowercasing both). -/
theorem equalFold_hex_case_insensitive (s t : String)
    (hs : ∀ c ∈ s.data, c ∈ hexDigits) (ht : ∀ c ∈ t.data, c ∈ hexDigits) :
    EqualFold s t = true ↔ s.data.map asciiLower = t.data.map asciiLower :=
  equalFoldList_hex_iff s.data t.data hs ht

/-- C8, witness: an accepting pair differing only in case, and a rejecting
pair differing beyond case. -/
theorem equalFold_hex_case_insensitive_witness :
    EqualFold "AB12" "ab12" = true ∧ EqualFold "AB12" "ab13" = false := by
  constructor
  · exact (equalFold_hex_case_insensitive "AB12" "ab12" (by decide) (by decide)).mpr
      (by decide)
  · cases hv : EqualFold "AB12" "ab13" with
    | false => rfl
    | true =>
      exact absurd
        ((equalFold_hex_case_insensitive "AB12" "ab13" (by decide) (by decide)).mp hv)
        (by decide)

/-- C9 counterexample: the claim says that after `Stop`, no tick can ever
fire again even if `Start` is called, the loop exiting before its first
tick.  `Start` indeed succeeds and reuses the closed channel, but the loop
may be delayed past a ticker expiry before executing its first `select`;
then both cases are ready and Go's select may choose the tick case, so an
admissible execution of the restarted loop performs a tick. -/
theorem stopped_restart_may_still_tick_cex :
    Start uC9stopped tenvC9 = Except.ok uC9restart ∧
    uC9restart.stopClosed = true ∧
    LoopRun (initLoopState uC9restart) [LoopEvent.tick] :=
  ⟨rfl, rfl,
   LoopRun.timerFire rfl (LoopRun.tickStep rfl (LoopRun.exitStep rfl))⟩

/-- C9 amended: after `Stop`, `Start` still returns success and spawns the
loop on the same, already-closed channel (never recreated); the restarted
loop can always exit immediately having fired no tick, and any admissible
execution that begins with a tick requires a ticker expiry to have occurred
before the loop's first `select` — without a pending tick the only ready
case is the stop case.  (A pending tick may still be chosen by Go's
randomized `select`, so "no tick can ever fire" does not hold.) -/
theorem stopped_restart_observes_closed_channel (u : Updater) (env : TimeEnv)
    (hid1 : u.projectUUID ≠ "") (hid2 : u.projectKey ≠ "")
    (hstop : u.stopClosed = true) :
    (∃ u', Start u env = Except.ok u' ∧ u'.stopClosed = true) ∧
    LoopRun { tickPending := false, stopClosed := true } [] ∧
    (∀ evs, LoopRun { tickPending := false, stopClosed := true } (LoopEvent.tick :: evs) →
      LoopRun { tickPending := true, stopClosed := true } (LoopEvent.tick :: evs)) := by
  refine ⟨⟨{ SyncTime u env with running := true }, ?_, ?_⟩, LoopRun.exitStep rfl, ?_⟩
  · unfold Start
    rw [if_neg (not_or.mpr ⟨hid1, hid2⟩)]
  · show (SyncTime u env).stopClosed = true
    rw [syncTime_stopClosed, hstop]
  · intro evs h
    cases h with
    | tickStep h rest => exact absurd h (by decide)
    | timerFire h rest => exact rest

/-- C9 amended, witness at a concrete input. -/
theorem stopped_restart_observes_closed_channel_witness :
    (∃ u', Start uC9stopped tenvC9 = Except.ok u' ∧ u'.stopClosed = true) ∧
    LoopRun { tickPending := false, stopClosed := true } [] ∧
    (∀ evs, LoopRun { tickPending := false, stopClosed := true } (LoopEvent.tick :: evs) →
      LoopRun { tickPending := true, stopClosed := true } (LoopEvent.tick :: evs)) :=
  stopped_restart_observes_closed_channel uC9stopped tenvC9 (by decide) (by decide) rfl

/-- C10: `verify` never inspects the HTTP status code — its result is a
function of the body alone — and it succeeds exactly when the body contains
one of the two markers; in particular a status-500 response carrying a
marker is accepted and a status-200 response without one is rejected. -/
theorem verify_substring_marker_ignores_status :
    (∀ (s₁ s₂ : Nat) (body : String),
        verify (some { status := s₁, body := body }) =
          verify (some { status := s₂, body := body })) ∧
    (∀ (s : Nat) (body : String),
        verify (some { status := s, body := body }) = true ↔
          (containsStr body "\"ok\":true" = true ∨ containsStr body "\"ok\": true" = true)) ∧
    verify (some { status := 500, body := "error \"ok\":true" }) = true ∧
    verify (some { status := 200, body := "all good, no marker" }) = false := by
  refine ⟨fun s₁ s₂ body => rfl, fun s body => ?_, by decide, by decide⟩
  simp [verify, Bool.or_eq_true]

end AutoDeployment
